import Mathlib

/-!
Verification of the Pomodoro timer daemon (`src/main.rs`).

The development shallowly embeds the parts of the program the claims are
about: the persisted session record (`State` / `Cycle`), the state store
(`read_state` / `clear_state` over an abstract file content), the argument
validators (`validate_minutes` / `validate_sets` / `parse_cycle`), the
foreground start path (`start_work` / `start_single_session` /
`start_session_state`), the liveness and termination probes (`pid_alive` /
`send_sigterm`), the `stop` command, and one iteration of the daemon loop
(`daemon_step`), with an explicit trace of the writes, clears and
notifications it performs.

Machine integers are embedded as `Nat` (for Rust `u64`) and `Int` (for Rust
`i64` / `pid_t`), with the checked and saturating operations made explicit
where the source uses them.
-/

namespace Pomo

/-- The two phases, `Mode::Work` and `Mode::Break` (`brk` stands for the
Rust variant `Break`). -/
inductive Mode
  | work
  | brk
deriving DecidableEq, Repr

/-- The `Cycle` sub-record of the persisted state. -/
structure Cycle where
  set : Nat
  sets : Nat
  work_minutes : Nat
  break_minutes : Nat
deriving DecidableEq, Repr

/-- The persisted session record (`struct State` in the source). -/
structure State where
  pid : Int
  mode : Mode
  start_ts : Int
  end_ts : Int
  minutes : Nat
  cycle : Option Cycle
deriving DecidableEq, Repr

def DEFAULT_WORK_MINUTES : Nat := 25
def DEFAULT_BREAK_MINUTES : Nat := 5
def MAX_MINUTES : Nat := 24 * 60
def MAX_SETS : Nat := 100

/-! ### Machine arithmetic -/

def i64Min : Int := -((2 ^ 63 : Nat) : Int)
def i64Max : Int := ((2 ^ 63 : Nat) : Int) - 1

/-- Rust `m as i64` applied to a `u64` value `m < 2^64`: wrapping
conversion. -/
def u64AsI64 (m : Nat) : Int :=
  if m < 2 ^ 63 then (m : Int) else (m : Int) - ((2 ^ 64 : Nat) : Int)

/-- Rust `i64::saturating_mul`. -/
def saturatingMulI64 (a b : Int) : Int :=
  if a * b < i64Min then i64Min
  else if i64Max < a * b then i64Max
  else a * b

/-- Rust `i64::checked_add`. -/
def checkedAddI64 (a b : Int) : Option Int :=
  if i64Min ≤ a + b ∧ a + b ≤ i64Max then some (a + b) else none

/-- Rust `u64::checked_add`. -/
def checkedAddU64 (a b : Nat) : Option Nat :=
  if a + b < 2 ^ 64 then some (a + b) else none

/-- `start_ts.checked_add((minutes as i64).saturating_mul(60))`, the
deadline computation shared by `start_session` and both daemon phase
transitions. -/
def compute_end_ts (start_ts : Int) (minutes : Nat) : Option Int :=
  checkedAddI64 start_ts (saturatingMulI64 (u64AsI64 minutes) 60)

/-! ### Validators (`validate_minutes`, `validate_sets`, `parse_cycle`) -/

def validate_minutes (minutes : Nat) : Except String Unit :=
  if minutes = 0 then .error "minutes must be > 0"
  else if MAX_MINUTES < minutes then .error "minutes too large"
  else .ok ()

def validate_sets (sets : Nat) : Except String Unit :=
  if sets = 0 then .error "sets must be > 0"
  else if MAX_SETS < sets then .error "sets too large"
  else .ok ()

/-- `parse_cycle` from the source: reconstructs the optional `Cycle` from
the daemon's command-line arguments. -/
def parse_cycle (sets set work_minutes break_minutes : Option Nat) :
    Except String (Option Cycle) :=
  if sets.isNone && set.isNone && work_minutes.isNone && break_minutes.isNone then
    .ok none
  else
    match sets with
    | none => .error "invalid cycle args: missing --sets"
    | some sets =>
      match set with
      | none => .error "invalid cycle args: missing --set"
      | some set =>
        match work_minutes with
        | none => .error "invalid cycle args: missing --work-minutes"
        | some wm =>
          match break_minutes with
          | none => .error "invalid cycle args: missing --break-minutes"
          | some bm =>
            match validate_sets sets with
            | .error e => .error e
            | .ok _ =>
              if sets ≤ 1 then .ok none
              else if set = 0 ∨ sets < set then
                .error "invalid cycle args: --set must be in 1..=sets"
              else
                match validate_minutes wm with
                | .error e => .error e
                | .ok _ =>
                  match validate_minutes bm with
                  | .error e => .error e
                  | .ok _ => .ok (some ⟨set, sets, wm, bm⟩)

/-! ### State store

The content of the state file at one path is abstracted as: absent, a
well-formed record, unparseable bytes, or an unreadable file (an I/O error
other than not-found). -/

inductive FileContent
  | absent
  | record (s : State)
  | corrupt
  | unreadable
deriving DecidableEq, Repr

/-- `clear_state`: removes the file; absence is not an error. -/
def clear_state (_ : FileContent) : FileContent := .absent

/-- `read_state` from the source, returning the parsed record (if any)
together with the file content it leaves behind: a parse failure deletes
the file and is reported as `none`, never as an error; only a genuine read
failure (other than not-found) is an error. -/
def read_state : FileContent → Except String (Option State × FileContent)
  | .absent => .ok (none, .absent)
  | .record s => .ok (some s, .record s)
  | .corrupt => .ok (none, clear_state .corrupt)
  | .unreadable => .error "failed to read state file"

/-- The field comparison inside `state_matches`. -/
def fields_match (s : State) (pid : Int) (mode : Mode) (start_ts end_ts : Int)
    (minutes : Nat) : Bool :=
  decide (s.pid = pid) && decide (s.mode = mode) &&
    decide (s.start_ts = start_ts) && decide (s.end_ts = end_ts) &&
    decide (s.minutes = minutes)

/-- `state_matches` from the source: read the file and compare the record's
identity fields with the daemon's in-memory values. -/
def state_matches (c : FileContent) (pid : Int) (mode : Mode)
    (start_ts end_ts : Int) (minutes : Nat) :
    Except String (Bool × FileContent) :=
  match read_state c with
  | .error e => .error e
  | .ok (none, c2) => .ok (false, c2)
  | .ok (some s, c2) => .ok (fields_match s pid mode start_ts end_ts minutes, c2)

/-! ### Process control (`pid_alive`, `send_sigterm`)

The outcome of one `libc::kill` call is abstracted as success or one of
the possible `errno` values. -/

inductive KillResult
  | success
  | esrch
  | eperm
  | otherErr (code : Int)
deriving DecidableEq, Repr

/-- `pid_alive` from the source: a non-positive pid is never alive (no
probe is sent); otherwise the zero-signal probe outcome decides: success
or `EPERM` mean alive, `ESRCH` means dead, anything else is a hard
error. -/
def pid_alive (pid : Int) (probe : KillResult) : Except String Bool :=
  if pid ≤ 0 then .ok false
  else
    match probe with
    | .success => .ok true
    | .esrch => .ok false
    | .eperm => .ok true
    | .otherErr _ => .error "failed to check pid"

/-- `send_sigterm` from the source: success and `ESRCH` (already gone) are
fine, any other errno is a hard error. -/
def send_sigterm (res : KillResult) : Except String Unit :=
  match res with
  | .success => .ok ()
  | .esrch => .ok ()
  | .eperm => .error "failed to stop pid"
  | .otherErr _ => .error "failed to stop pid"

/-! ### Foreground start path -/

/-- The session request resolved by the dispatcher: which mode to run, the
phase length in minutes, and the optional cycle, exactly the arguments
`start_work` / `start_single_session` pass to `start_session`. -/
def validated_request (mode : Mode) (minutes : Nat) (cycle : Option Cycle) :
    Mode × Nat × Option Cycle := (mode, minutes, cycle)

/-- The per-mode default phase length (`minutes.unwrap_or(...)` in
`start_single_session`). -/
def default_minutes : Mode → Nat
  | .work => DEFAULT_WORK_MINUTES
  | .brk => DEFAULT_BREAK_MINUTES

/-- `start_single_session` from the source: fill in the per-mode default
length, validate it, and request a session with no cycle. -/
def start_single_session (mode : Mode) (minutes : Option Nat) :
    Except String (Mode × Nat × Option Cycle) :=
  match validate_minutes (minutes.getD (default_minutes mode)) with
  | .error e => .error e
  | .ok _ =>
    .ok (validated_request mode (minutes.getD (default_minutes mode)) none)

/-- `start_work` from the source: no sets or `sets <= 1` degenerates to a
single work session; otherwise both phase lengths (`wm`, `bm` in the
source) are resolved and validated and a cycle starting at set 1 is
requested. -/
def start_work (minutes sets break_minutes : Option Nat) :
    Except String (Mode × Nat × Option Cycle) :=
  match sets with
  | none => start_single_session .work minutes
  | some s =>
    match validate_sets s with
    | .error e => .error e
    | .ok _ =>
      if s ≤ 1 then start_single_session .work minutes
      else
        match validate_minutes (minutes.getD DEFAULT_WORK_MINUTES) with
        | .error e => .error e
        | .ok _ =>
          match validate_minutes (break_minutes.getD DEFAULT_BREAK_MINUTES) with
          | .error e => .error e
          | .ok _ =>
            .ok (validated_request .work (minutes.getD DEFAULT_WORK_MINUTES)
              (some ⟨1, s, minutes.getD DEFAULT_WORK_MINUTES,
                break_minutes.getD DEFAULT_BREAK_MINUTES⟩))

/-- The record `start_session` writes, given the spawned daemon's pid and
the current clock: lines 213-216 and 272-279 of the source. Overflow of the
deadline computation is an error and nothing is written. -/
def start_session_state (pid : Int) (mode : Mode) (minutes : Nat)
    (cycle : Option Cycle) (start_ts : Int) : Except String State :=
  match compute_end_ts start_ts minutes with
  | none => .error "timestamp overflow"
  | some end_ts => .ok ⟨pid, mode, start_ts, end_ts, minutes, cycle⟩

/-! ### The `stop` command

The filesystem relevant to `stop` is the pair of state paths; the process
environment supplies the outcome of each `kill` call by pid. -/

structure FS where
  primary : FileContent
  legacy : FileContent
deriving DecidableEq, Repr

structure ProcEnv where
  probe : Int → KillResult
  term : Int → KillResult

/-- The body of `stop`'s loop for one path: read the record, terminate its
pid if alive, and always clear the file; reports whether a live daemon was
stopped. -/
def stop_one (env : ProcEnv) (c : FileContent) :
    Except String (Bool × FileContent) :=
  match read_state c with
  | .error e => .error e
  | .ok (none, c2) => .ok (false, c2)
  | .ok (some s, c2) =>
    match pid_alive s.pid (env.probe s.pid) with
    | .error e => .error e
    | .ok true =>
      match send_sigterm (env.term s.pid) with
      | .error e => .error e
      | .ok _ => .ok (true, clear_state c2)
    | .ok false => .ok (false, clear_state c2)

/-- `stop` from the source: process the primary then the legacy path and
report exit code 0 when something was stopped, 1 ("not running")
otherwise. -/
def stop (env : ProcEnv) (fs : FS) : Except String (Int × FS) :=
  match stop_one env fs.primary with
  | .error e => .error e
  | .ok (s1, p2) =>
    match stop_one env fs.legacy with
    | .error e => .error e
    | .ok (s2, l2) => .ok (if s1 || s2 then 0 else 1, ⟨p2, l2⟩)

/-! ### The daemon loop (`run_daemon`)

One iteration of the loop is `daemon_step`. The daemon's in-memory values
form a `DaemonState`; the environment supplies the file content observed by
the two ownership checks (`fs1` before the sleep, `fs2` after waking) and
the wall clock `now2` read when computing the next phase. The sleep itself
has no observable effect in the embedding. Each step reports the daemon's
own filesystem writes, clears and notifications, in order, as `Effect`s. -/

structure DaemonState where
  pid : Int
  mode : Mode
  start_ts : Int
  end_ts : Int
  minutes : Nat
  cycle : Option Cycle
deriving DecidableEq, Repr

/-- The record currently owned by the daemon (what `state_matches` compares
against, and what the parent wrote for the initial phase). -/
def currentState (d : DaemonState) : State :=
  ⟨d.pid, d.mode, d.start_ts, d.end_ts, d.minutes, d.cycle⟩

inductive Effect
  | wrote (s : State)
  | cleared
  | notified (m : Mode)
deriving DecidableEq, Repr

inductive StepResult
  | superseded
  | finished
  | next (d : DaemonState)
deriving DecidableEq, Repr

/-- The phase-transition decision (source lines 416-497): the part of the
loop body after both ownership checks have passed. -/
def daemon_transition (d : DaemonState) (now2 : Int) :
    Except String (StepResult × List Effect) :=
  match d.cycle with
  | none => .ok (.finished, [.cleared, .notified d.mode])
  | some cfg =>
    match d.mode with
    | .work =>
      if cfg.sets ≤ cfg.set then
        .ok (.finished, [.cleared, .notified d.mode])
      else
        match compute_end_ts now2 cfg.break_minutes with
        | none => .error "timestamp overflow"
        | some next_end_ts =>
          .ok (.next ⟨d.pid, .brk, now2, next_end_ts, cfg.break_minutes, some cfg⟩,
            [.wrote ⟨d.pid, .brk, now2, next_end_ts, cfg.break_minutes, some cfg⟩,
             .notified d.mode])
    | .brk =>
      if cfg.sets ≤ cfg.set then
        .ok (.finished, [.cleared, .notified d.mode])
      else
        match checkedAddU64 cfg.set 1 with
        | none => .error "set counter overflow"
        | some set2 =>
          match compute_end_ts now2 cfg.work_minutes with
          | none => .error "timestamp overflow"
          | some next_end_ts =>
            .ok (.next ⟨d.pid, .work, now2, next_end_ts, cfg.work_minutes,
                some ⟨set2, cfg.sets, cfg.work_minutes, cfg.break_minutes⟩⟩,
              [.wrote ⟨d.pid, .work, now2, next_end_ts, cfg.work_minutes,
                some ⟨set2, cfg.sets, cfg.work_minutes, cfg.break_minutes⟩⟩,
               .notified d.mode])

/-- One iteration of `run_daemon`'s loop (source lines 388-497): ownership
check, sleep (unobservable), re-check, then the phase transition. -/
def daemon_step (d : DaemonState) (fs1 fs2 : FileContent) (now2 : Int) :
    Except String (StepResult × List Effect) :=
  match state_matches fs1 d.pid d.mode d.start_ts d.end_ts d.minutes with
  | .error e => .error e
  | .ok (false, _) => .ok (.superseded, [])
  | .ok (true, _) =>
    match state_matches fs2 d.pid d.mode d.start_ts d.end_ts d.minutes with
    | .error e => .error e
    | .ok (false, _) => .ok (.superseded, [])
    | .ok (true, _) => daemon_transition d now2

/-- Iterate the daemon loop in the undisturbed environment: at every check
the file holds exactly the daemon's own record (ownership always succeeds)
and every deadline has already passed; `clock k` is the wall clock at the
`k`-th transition. Returns `none` when the fuel runs out. -/
def run_daemon_loop (fuel : Nat) (d : DaemonState) (clock : Nat → Int)
    (k : Nat) : Except String (Option (List Effect)) :=
  match fuel with
  | 0 => .ok none
  | fuel + 1 =>
    match daemon_step d (.record (currentState d)) (.record (currentState d))
        (clock k) with
    | .error e => .error e
    | .ok (.superseded, effs) => .ok (some effs)
    | .ok (.finished, effs) => .ok (some effs)
    | .ok (.next d2, effs) =>
      match run_daemon_loop fuel d2 clock (k + 1) with
      | .error e => .error e
      | .ok none => .ok none
      | .ok (some rest) => .ok (some (effs ++ rest))

/-- The phase identity of a persisted record: its mode and its set number
(0 for a cycle-less record). -/
def phase_of (s : State) : Mode × Nat :=
  (s.mode, match s.cycle with
    | none => 0
    | some c => c.set)

/-- The phases persisted by a trace of effects, in order. -/
def persisted_phases (effs : List Effect) : List (Mode × Nat) :=
  effs.filterMap fun e =>
    match e with
    | .wrote s => some (phase_of s)
    | _ => none

/-! ### Derived predicates and concrete instances -/

/-- The file content disagrees with the daemon's identity: the file is
absent, or it holds a record whose identity fields do not all match. -/
def record_mismatch (c : FileContent) (d : DaemonState) : Prop :=
  c = .absent ∨ ∃ s, c = .record s ∧
    fields_match s d.pid d.mode d.start_ts d.end_ts d.minutes = false

/-- The cycle invariant of the data model: `1 <= set <= sets` and
`sets >= 2`. -/
def cycle_invariant (c : Cycle) : Prop :=
  1 ≤ c.set ∧ c.set ≤ c.sets ∧ 2 ≤ c.sets

/-- The phase lengths stored in a daemon's cycle are within the validated
range (established by `parse_cycle` at daemon startup). -/
def cycle_minutes_valid : Option Cycle → Prop
  | none => True
  | some c => c.work_minutes ≤ MAX_MINUTES ∧ c.break_minutes ≤ MAX_MINUTES

/-- A daemon freshly started with `sets = 3, work = 1, break = 1`. -/
def cycle_demo_d0 : DaemonState := ⟨4242, .work, 1000, 1060, 1, some ⟨1, 3, 1, 1⟩⟩

/-- A wall clock for the demo run: each transition happens one second after
the previous one, starting at the first deadline. -/
def cycle_demo_clock : Nat → Int := fun k => 1060 + k

/-- The effect trace of the demo run, written out explicitly. -/
def cycle_demo_effs : List Effect :=
  [.wrote ⟨4242, .brk, 1060, 1120, 1, some ⟨1, 3, 1, 1⟩⟩, .notified .work,
   .wrote ⟨4242, .work, 1061, 1121, 1, some ⟨2, 3, 1, 1⟩⟩, .notified .brk,
   .wrote ⟨4242, .brk, 1062, 1122, 1, some ⟨2, 3, 1, 1⟩⟩, .notified .work,
   .wrote ⟨4242, .work, 1063, 1123, 1, some ⟨3, 3, 1, 1⟩⟩, .notified .brk,
   .cleared, .notified .work]

/-- A process environment in which every probe and termination signal
succeeds. -/
def demo_env : ProcEnv := ⟨fun _ => .success, fun _ => .success⟩

/-- A concrete running session record. -/
def demo_state : State := ⟨4242, .work, 0, 1500, 25, none⟩

/-! ## Helper lemmas -/

theorem state_matches_absent (pid : Int) (mode : Mode) (a b : Int) (m : Nat) :
    state_matches .absent pid mode a b m = .ok (false, .absent) := rfl

theorem state_matches_record (s : State) (pid : Int) (mode : Mode) (a b : Int)
    (m : Nat) :
    state_matches (.record s) pid mode a b m =
      .ok (fields_match s pid mode a b m, .record s) := rfl

theorem fields_match_self (d : DaemonState) :
    fields_match (currentState d) d.pid d.mode d.start_ts d.end_ts d.minutes
      = true := by
  simp [fields_match, currentState]

theorem validate_minutes_ok {m : Nat} {u : Unit}
    (h : validate_minutes m = .ok u) : 1 ≤ m ∧ m ≤ MAX_MINUTES := by
  unfold validate_minutes at h
  split at h
  · simp at h
  · split at h
    · simp at h
    · omega

theorem validate_minutes_of {m : Nat} (h1 : 1 ≤ m) (h2 : m ≤ MAX_MINUTES) :
    validate_minutes m = .ok () := by
  unfold validate_minutes
  split
  · omega
  · split
    · omega
    · rfl

theorem validate_sets_ok {s : Nat} {u : Unit}
    (h : validate_sets s = .ok u) : 1 ≤ s ∧ s ≤ MAX_SETS := by
  unfold validate_sets at h
  split at h
  · simp at h
  · split at h
    · simp at h
    · omega

theorem validate_sets_of {s : Nat} (h1 : 1 ≤ s) (h2 : s ≤ MAX_SETS) :
    validate_sets s = .ok () := by
  unfold validate_sets
  split
  · omega
  · split
    · omega
    · rfl


theorem saturatingMulI64_small {m : Nat} (hm : m ≤ MAX_MINUTES) :
    saturatingMulI64 (u64AsI64 m) 60 = (m : Int) * 60 := by
  have hm63 : m < 2 ^ 63 := lt_of_le_of_lt hm (by norm_num [MAX_MINUTES])
  have hcast : u64AsI64 m = (m : Int) := by rw [u64AsI64, if_pos hm63]
  rw [hcast]
  unfold saturatingMulI64 i64Min i64Max
  have hub : (m : Int) * 60 ≤ 86400 := by
    have : (m : Int) ≤ 1440 := by exact_mod_cast hm
    nlinarith
  have hlb : (0 : Int) ≤ (m : Int) * 60 := by positivity
  have hbig : ((2 ^ 63 : Nat) : Int) = 9223372036854775808 := by norm_num
  rw [hbig]
  split
  · omega
  · split
    · omega
    · rfl

theorem compute_end_ts_valid {t : Int} {m : Nat} {e : Int}
    (hm : m ≤ MAX_MINUTES) (h : compute_end_ts t m = some e) :
    e = t + (m : Int) * 60 := by
  unfold compute_end_ts at h
  rw [saturatingMulI64_small hm] at h
  unfold checkedAddI64 at h
  split at h
  · exact (Option.some_inj.mp h).symm
  · simp at h

/-! ## Claims -/

/-- C5: reading the state file returns `none` when the file is absent;
when the file exists but fails to parse, the read deletes the file and
returns `none`, and the parse failure is not surfaced as an error (a
well-formed record is returned unchanged). -/
theorem read_state_corruption_self_heals :
    read_state .absent = .ok (none, .absent) ∧
    (∀ s : State, read_state (.record s) = .ok (some s, .record s)) ∧
    read_state .corrupt = .ok (none, .absent) :=
  ⟨rfl, fun _ => rfl, rfl⟩

/-- C7: `pid_alive` returns `false` for every non-positive pid regardless
of any probe outcome (no probing), and for positive pids it maps a
successful or permission-denied probe to alive, a no-such-process probe to
dead, and any other probe error to a hard error. -/
theorem pid_alive_behaviour :
    (∀ (pid : Int) (p1 p2 : KillResult), pid ≤ 0 →
      pid_alive pid p1 = .ok false ∧ pid_alive pid p1 = pid_alive pid p2) ∧
    (∀ pid : Int, 0 < pid →
      pid_alive pid .success = .ok true ∧
      pid_alive pid .esrch = .ok false ∧
      pid_alive pid .eperm = .ok true ∧
      ∀ c : Int, pid_alive pid (.otherErr c) = .error "failed to check pid") := by
  constructor
  · intro pid p1 p2 hle
    simp [pid_alive, hle]
  · intro pid hpos
    have hnle : ¬pid ≤ 0 := by omega
    simp [pid_alive, hnle]

theorem pid_alive_behaviour_witness :
    pid_alive 0 KillResult.success = .ok false ∧
    pid_alive 7 (KillResult.otherErr 13) = .error "failed to check pid" :=
  ⟨(pid_alive_behaviour.1 0 .success .esrch (by decide)).1,
   (pid_alive_behaviour.2 7 (by decide)).2.2.2 13⟩

/-- C1: in any daemon loop iteration, if the state file is absent or holds
a record whose `pid`/`mode`/`start_ts`/`end_ts`/`minutes` do not all match
the daemon's in-memory values — at the first ownership check, or at the
re-check after the sleep — the step exits silently with no write, clear or
notification. -/
theorem daemon_exits_silently_on_mismatch (d : DaemonState)
    (fs1 fs2 : FileContent) (now2 : Int) :
    (record_mismatch fs1 d → daemon_step d fs1 fs2 now2 = .ok (.superseded, [])) ∧
    (∀ s1 : State, fs1 = .record s1 →
      fields_match s1 d.pid d.mode d.start_ts d.end_ts d.minutes = true →
      record_mismatch fs2 d →
      daemon_step d fs1 fs2 now2 = .ok (.superseded, [])) := by
  constructor
  · rintro (rfl | ⟨s, rfl, hf⟩)
    · rfl
    · simp [daemon_step, state_matches_record, hf]
  · rintro s1 rfl h1 (rfl | ⟨s, rfl, hf⟩)
    · simp [daemon_step, state_matches_record, state_matches_absent, h1]
    · simp [daemon_step, state_matches_record, h1, hf]

theorem daemon_exits_silently_on_mismatch_witness :
    daemon_step ⟨1, .work, 0, 60, 1, none⟩ .absent .absent 0 =
      .ok (.superseded, []) :=
  (daemon_exits_silently_on_mismatch ⟨1, .work, 0, 60, 1, none⟩ .absent .absent 0).1
    (Or.inl rfl)

/-- C2: a daemon started on Work with `sets = 3` (work 1 minute, break 1
minute), whose ownership checks all succeed and whose deadlines all pass,
persists exactly the phases Work(set 1) (written by `start`), Break(set 1),
Work(set 2), Break(set 2), Work(set 3), then clears the state file; the
final two effects are the clear and the Work-finished notification, so no
Break phase is persisted after the last work set. -/
theorem daemon_cycle_three_sets :
    run_daemon_loop 10 cycle_demo_d0 cycle_demo_clock 0 = .ok (some cycle_demo_effs) ∧
    persisted_phases (.wrote (currentState cycle_demo_d0) :: cycle_demo_effs) =
      [(Mode.work, 1), (Mode.brk, 1), (Mode.work, 2), (Mode.brk, 2), (Mode.work, 3)] ∧
    cycle_demo_effs.getLast? = some (.notified .work) ∧
    cycle_demo_effs.dropLast.getLast? = some .cleared :=
  ⟨rfl, rfl, rfl, rfl⟩


theorem parse_cycle_some {a b c e : Option Nat} {cfg : Cycle}
    (h : parse_cycle a b c e = .ok (some cfg)) :
    1 ≤ cfg.set ∧ cfg.set ≤ cfg.sets ∧ 2 ≤ cfg.sets ∧ cfg.sets ≤ MAX_SETS ∧
    1 ≤ cfg.work_minutes ∧ cfg.work_minutes ≤ MAX_MINUTES ∧
    1 ≤ cfg.break_minutes ∧ cfg.break_minutes ≤ MAX_MINUTES := by
  unfold parse_cycle at h
  split at h
  · simp at h
  · split at h
    · simp at h
    · split at h
      · simp at h
      · split at h
        · simp at h
        · split at h
          · simp at h
          · split at h
            · simp at h
            · split at h
              · simp at h
              · split at h
                · simp at h
                · split at h
                  · simp at h
                  · split at h
                    · simp at h
                    · simp only [Except.ok.injEq, Option.some.injEq] at h
                      subst h
                      rename_i hnotall s1 s2 s3 s4 hvs hle hset hwm hbm
                      obtain ⟨ha1, ha2⟩ := validate_sets_ok s1
                      obtain ⟨hb1, hb2⟩ := validate_minutes_ok hle
                      obtain ⟨hc1, hc2⟩ := validate_minutes_ok hbm
                      refine ⟨?_, ?_, ?_, ?_, ?_, ?_, ?_, ?_⟩ <;> (try simp) <;> omega

theorem daemon_step_ok_effects {d : DaemonState} {fs1 fs2 : FileContent}
    {now2 : Int} {r : StepResult} {effs : List Effect}
    (h : daemon_step d fs1 fs2 now2 = .ok (r, effs)) :
    effs = [] ∨ daemon_transition d now2 = .ok (r, effs) := by
  unfold daemon_step at h
  split at h
  · simp at h
  · simp only [Except.ok.injEq, Prod.mk.injEq] at h
    exact Or.inl h.2.symm
  · split at h
    · simp at h
    · simp only [Except.ok.injEq, Prod.mk.injEq] at h
      exact Or.inl h.2.symm
    · exact Or.inr h

theorem daemon_transition_end_ts {d : DaemonState} {now2 : Int} {r : StepResult}
    {effs : List Effect} {st : State}
    (hc : cycle_minutes_valid d.cycle)
    (h : daemon_transition d now2 = .ok (r, effs))
    (hw : Effect.wrote st ∈ effs) :
    st.end_ts = st.start_ts + (st.minutes : Int) * 60 := by
  unfold daemon_transition at h
  split at h
  · simp only [Except.ok.injEq, Prod.mk.injEq] at h
    obtain ⟨hr, he⟩ := h
    subst he
    simp at hw
  · rename_i cfg hcy
    rw [hcy] at hc
    obtain ⟨hcw, hcb⟩ := hc
    split at h
    · -- work branch
      split at h
      · simp only [Except.ok.injEq, Prod.mk.injEq] at h
        obtain ⟨hr, he⟩ := h
        subst he
        simp at hw
      · split at h
        · simp at h
        · rename_i hnle next_end_ts hce
          simp only [Except.ok.injEq, Prod.mk.injEq] at h
          obtain ⟨hr, he⟩ := h
          subst he
          simp only [List.mem_cons, List.mem_singleton] at hw
          rcases hw with hw | hw
          · obtain rfl : st = _ := by
              cases hw
              rfl
            simp
            exact compute_end_ts_valid hcb hce
          · simp at hw
    · -- brk branch
      split at h
      · simp only [Except.ok.injEq, Prod.mk.injEq] at h
        obtain ⟨hr, he⟩ := h
        subst he
        simp at hw
      · split at h
        · simp at h
        · split at h
          · simp at h
          · rename_i hnle set2 hadd next_end_ts hce
            simp only [Except.ok.injEq, Prod.mk.injEq] at h
            obtain ⟨hr, he⟩ := h
            subst he
            simp only [List.mem_cons, List.mem_singleton] at hw
            rcases hw with hw | hw
            · obtain rfl : st = _ := by
                cases hw
                rfl
              simp
              exact compute_end_ts_valid hcw hce
            · simp at hw

theorem daemon_transition_cycle_inv {d : DaemonState} {now2 : Int}
    {r : StepResult} {effs : List Effect} {st : State} {cfg0 cfg : Cycle}
    (h0 : d.cycle = some cfg0) (hinv : cycle_invariant cfg0)
    (h : daemon_transition d now2 = .ok (r, effs))
    (hw : Effect.wrote st ∈ effs) (hst : st.cycle = some cfg) :
    cycle_invariant cfg := by
  unfold daemon_transition at h
  split at h
  · rename_i hcy
    rw [h0] at hcy
    simp at hcy
  · rename_i cfg1 hcy
    rw [h0] at hcy
    injection hcy with hcy2
    subst hcy2
    split at h
    · split at h
      · simp only [Except.ok.injEq, Prod.mk.injEq] at h
        obtain ⟨hr, he⟩ := h
        subst he
        simp at hw
      · split at h
        · simp at h
        · simp only [Except.ok.injEq, Prod.mk.injEq] at h
          obtain ⟨hr, he⟩ := h
          subst he
          simp only [List.mem_cons, List.mem_singleton] at hw
          rcases hw with hw | hw
          · obtain rfl : st = _ := by
              cases hw
              rfl
            simp at hst
            subst hst
            exact hinv
          · simp at hw
    · split at h
      · simp only [Except.ok.injEq, Prod.mk.injEq] at h
        obtain ⟨hr, he⟩ := h
        subst he
        simp at hw
      · split at h
        · simp at h
        · split at h
          · simp at h
          · rename_i hnle junkA set2 hadd junkB next_end_ts hce
            simp only [Except.ok.injEq, Prod.mk.injEq] at h
            obtain ⟨hr, he⟩ := h
            subst he
            simp only [List.mem_cons, List.mem_singleton] at hw
            rcases hw with hw | hw
            · obtain rfl : st = _ := by
                cases hw
                rfl
              simp at hst
              subst hst
              unfold checkedAddU64 at hadd
              split at hadd
              · injection hadd with hadd2
                obtain ⟨i1, i2, i3⟩ := hinv
                refine ⟨?_, ?_, ?_⟩ <;> (try simp) <;> omega
              · simp at hadd
            · simp at hw

theorem state_matches_error {c : FileContent} {pid : Int} {mode : Mode}
    {a b : Int} {m : Nat} {e : String}
    (h : state_matches c pid mode a b m = .error e) :
    e = "failed to read state file" := by
  cases c with
  | absent => simp [state_matches, read_state] at h
  | record s => simp [state_matches, read_state] at h
  | corrupt => simp [state_matches, read_state] at h
  | unreadable =>
    injection h with h2
    exact h2.symm

theorem daemon_step_error_cases {d : DaemonState} {fs1 fs2 : FileContent}
    {now2 : Int} {e : String}
    (h : daemon_step d fs1 fs2 now2 = .error e) :
    e = "failed to read state file" ∨ daemon_transition d now2 = .error e := by
  unfold daemon_step at h
  split at h
  · rename_i e1 hsm
    injection h with h2
    subst h2
    exact Or.inl (state_matches_error hsm)
  · simp at h
  · split at h
    · rename_i e2 hsm
      injection h with h2
      subst h2
      exact Or.inl (state_matches_error hsm)
    · simp at h
    · exact Or.inr h

theorem daemon_transition_no_set_overflow {d : DaemonState} {now2 : Int}
    {cfg : Cycle} (h0 : d.cycle = some cfg) (_h1 : cfg.set ≤ cfg.sets)
    (h2 : cfg.sets ≤ MAX_SETS) :
    daemon_transition d now2 ≠ .error "set counter overflow" := by
  intro h
  unfold daemon_transition at h
  split at h
  · simp at h
  · rename_i cfg1 hcy
    rw [h0] at hcy
    injection hcy with hcy2
    subst hcy2
    split at h
    · split at h
      · simp at h
      · split at h
        · injection h with h3
          exact absurd h3 (by decide)
        · simp at h
    · split at h
      · simp at h
      · split at h
        · rename_i hnle hadd
          unfold checkedAddU64 at hadd
          split at hadd
          · simp at hadd
          · rename_i hbig
            have h2n : cfg.sets ≤ 100 := h2
            have : cfg.set + 1 < 102 := by omega
            exact hbig (lt_of_lt_of_le this (by norm_num))
        · split at h
          · injection h with h3
            exact absurd h3 (by decide)
          · simp at h

theorem start_single_session_no_cycle {mode : Mode} {m : Option Nat}
    {mo : Mode} {mi : Nat} {cy : Option Cycle}
    (h : start_single_session mode m = .ok (mo, mi, cy)) : cy = none := by
  unfold start_single_session at h
  split at h
  · simp at h
  · simp only [validated_request, Except.ok.injEq, Prod.mk.injEq] at h
    exact h.2.2.symm

theorem start_single_session_ok {mode : Mode} {m : Option Nat} {u : Unit}
    (hv : validate_minutes (m.getD (default_minutes mode)) = .ok u) :
    start_single_session mode m =
      .ok (mode, m.getD (default_minutes mode), none) := by
  unfold start_single_session
  rw [hv]
  rfl

/-- C3: every record constructed for writing — by `start_session` and by
both daemon phase transitions — satisfies
`end_ts = start_ts + minutes * 60` (with the record's own `minutes`
field), given that the minutes value passed validation; when the deadline
arithmetic would overflow, `start_session` errors out instead of
producing a record. -/
theorem end_ts_equals_start_plus_minutes :
    (∀ (pid : Int) (mode : Mode) (minutes : Nat) (cyc : Option Cycle)
      (start_ts : Int) (st : State),
      validate_minutes minutes = .ok () →
      start_session_state pid mode minutes cyc start_ts = .ok st →
      st.minutes = minutes ∧ st.end_ts = st.start_ts + (st.minutes : Int) * 60) ∧
    (∀ (pid : Int) (mode : Mode) (minutes : Nat) (cyc : Option Cycle)
      (start_ts : Int),
      compute_end_ts start_ts minutes = none →
      start_session_state pid mode minutes cyc start_ts =
        .error "timestamp overflow") ∧
    (∀ (d : DaemonState) (fs1 fs2 : FileContent) (now2 : Int) (r : StepResult)
      (effs : List Effect) (st : State),
      cycle_minutes_valid d.cycle →
      daemon_step d fs1 fs2 now2 = .ok (r, effs) →
      Effect.wrote st ∈ effs →
      st.end_ts = st.start_ts + (st.minutes : Int) * 60) := by
  refine ⟨?_, ?_, ?_⟩
  · intro pid mode minutes cyc start_ts st hv h
    unfold start_session_state at h
    rcases hce : compute_end_ts start_ts minutes with _ | e
    · rw [hce] at h
      simp at h
    · rw [hce] at h
      simp only [Except.ok.injEq] at h
      subst h
      exact ⟨rfl, compute_end_ts_valid (validate_minutes_ok hv).2 hce⟩
  · intro pid mode minutes cyc start_ts hce
    unfold start_session_state
    rw [hce]
  · intro d fs1 fs2 now2 r effs st hc h hw
    rcases daemon_step_ok_effects h with rfl | ht
    · simp at hw
    · exact daemon_transition_end_ts hc ht hw

theorem end_ts_equals_start_plus_minutes_witness :
    (⟨77, .work, 1000, 2500, 25, none⟩ : State).minutes = 25 ∧
    (⟨77, .work, 1000, 2500, 25, none⟩ : State).end_ts =
      (⟨77, .work, 1000, 2500, 25, none⟩ : State).start_ts + (25 : Int) * 60 :=
  end_ts_equals_start_plus_minutes.1 77 .work 25 none 1000
    ⟨77, .work, 1000, 2500, 25, none⟩ rfl rfl

/-- C4: every cycle carried by a constructed record is well-formed —
`1 <= set <= sets` and `sets >= 2`: `start_work` only ever builds such a
cycle, `parse_cycle` only ever accepts such a cycle, and a daemon step
started from a well-formed cycle only writes records with well-formed
cycles (so single-set runs never carry a cycle, as a cycle forces
`sets >= 2`). -/
theorem cycle_bounds_invariant :
    (∀ (m s b : Option Nat) (mode : Mode) (wm : Nat) (cfg : Cycle),
      start_work m s b = .ok (mode, wm, some cfg) → cycle_invariant cfg) ∧
    (∀ (a b c e : Option Nat) (cfg : Cycle),
      parse_cycle a b c e = .ok (some cfg) → cycle_invariant cfg) ∧
    (∀ (d : DaemonState) (fs1 fs2 : FileContent) (now2 : Int) (r : StepResult)
      (effs : List Effect) (cfg0 cfg : Cycle) (st : State),
      d.cycle = some cfg0 → cycle_invariant cfg0 →
      daemon_step d fs1 fs2 now2 = .ok (r, effs) →
      Effect.wrote st ∈ effs → st.cycle = some cfg → cycle_invariant cfg) := by
  refine ⟨?_, ?_, ?_⟩
  · intro m s b mode wm cfg h
    unfold start_work at h
    split at h
    · exact absurd (start_single_session_no_cycle h) (by simp)
    · rename_i s2
      split at h
      · simp at h
      · split at h
        · exact absurd (start_single_session_no_cycle h) (by simp)
        · rename_i hgt
          split at h
          · simp at h
          · split at h
            · simp at h
            · simp only [validated_request, Except.ok.injEq, Prod.mk.injEq,
                Option.some.injEq] at h
              obtain ⟨hm, hw2, hcfg⟩ := h
              subst hcfg
              refine ⟨by simp, ?_, ?_⟩ <;> simp <;> omega
  · intro a b c e cfg h
    have hp := parse_cycle_some h
    exact ⟨hp.1, hp.2.1, hp.2.2.1⟩
  · intro d fs1 fs2 now2 r effs cfg0 cfg st h0 hinv h hw hst
    rcases daemon_step_ok_effects h with rfl | ht
    · simp at hw
    · exact daemon_transition_cycle_inv h0 hinv ht hw hst

theorem cycle_bounds_invariant_witness : cycle_invariant ⟨1, 3, 25, 5⟩ :=
  cycle_bounds_invariant.2.1 (some 3) (some 1) (some 25) (some 5)
    ⟨1, 3, 25, 5⟩ rfl

/-- C10: the "set counter overflow" branch is unreachable: `parse_cycle`
only accepts cycles with `set <= sets <= 100`, and for any daemon whose
cycle satisfies those bounds no loop iteration can fail with the
"set counter overflow" error (the increment is only reached when
`set < sets`, so the checked addition stays far below `2^64`). -/
theorem set_counter_overflow_unreachable :
    (∀ (a b c e : Option Nat) (cfg : Cycle),
      parse_cycle a b c e = .ok (some cfg) →
      cfg.set ≤ cfg.sets ∧ cfg.sets ≤ MAX_SETS) ∧
    (∀ (d : DaemonState) (fs1 fs2 : FileContent) (now2 : Int) (cfg : Cycle),
      d.cycle = some cfg → cfg.set ≤ cfg.sets → cfg.sets ≤ MAX_SETS →
      daemon_step d fs1 fs2 now2 ≠ .error "set counter overflow") := by
  constructor
  · intro a b c e cfg h
    have hp := parse_cycle_some h
    exact ⟨hp.2.1, hp.2.2.2.1⟩
  · intro d fs1 fs2 now2 cfg h0 h1 h2 h
    rcases daemon_step_error_cases h with he | ht
    · exact absurd he (by decide)
    · exact daemon_transition_no_set_overflow h0 h1 h2 ht

theorem set_counter_overflow_unreachable_witness :
    daemon_step ⟨9, .brk, 0, 60, 1, some ⟨1, 3, 1, 1⟩⟩ .absent .absent 0 ≠
      .error "set counter overflow" :=
  set_counter_overflow_unreachable.2 ⟨9, .brk, 0, 60, 1, some ⟨1, 3, 1, 1⟩⟩
    .absent .absent 0 ⟨1, 3, 1, 1⟩ rfl (by decide) (by decide)

/-- C6 counterexample: with valid minutes 25 and sets 2 but break-minutes
0, `start` rejects the arguments and writes no state at all, so it does
not produce a state with `cycle.sets = 2`. -/
theorem start_cycle_field_counterexample :
    start_work (some 25) (some 2) (some 0) = .error "minutes must be > 0" := rfl

/-- C6 (amended): for valid minutes `m` in [1,1440] and sets `s` in
[1,100], `start(m, s, b)` with `s <= 1` yields a single work session with
no cycle regardless of `b`; with `s >= 2` and a break-minutes value that is
omitted or within [1,1440], it yields a state whose cycle has `sets = s`
and `set = 1` (an out-of-range break-minutes is rejected and no state is
written). -/
theorem start_cycle_field (m s : Nat) (b : Option Nat)
    (hm1 : 1 ≤ m) (hm2 : m ≤ MAX_MINUTES) (hs1 : 1 ≤ s) (hs2 : s ≤ MAX_SETS) :
    (s ≤ 1 → start_work (some m) (some s) b = .ok (.work, m, none)) ∧
    (2 ≤ s → 1 ≤ b.getD DEFAULT_BREAK_MINUTES →
      b.getD DEFAULT_BREAK_MINUTES ≤ MAX_MINUTES →
      start_work (some m) (some s) b =
        .ok (.work, m, some ⟨1, s, m, b.getD DEFAULT_BREAK_MINUTES⟩)) := by
  constructor
  · intro hle
    simp only [start_work, validate_sets_of hs1 hs2]
    rw [if_pos hle]
    exact start_single_session_ok (validate_minutes_of hm1 hm2)
  · intro hs2b hb1 hb2
    simp only [start_work, validate_sets_of hs1 hs2]
    rw [if_neg (by omega : ¬s ≤ 1)]
    have hmv : validate_minutes ((some m).getD DEFAULT_WORK_MINUTES) = .ok () :=
      validate_minutes_of hm1 hm2
    simp only [hmv, validate_minutes_of hb1 hb2]
    rfl

theorem start_cycle_field_witness :
    start_work (some 25) (some 1) (some 7) = .ok (.work, 25, none) ∧
    start_work (some 30) (some 3) none = .ok (.work, 30, some ⟨1, 3, 30, 5⟩) :=
  ⟨(start_cycle_field 25 1 (some 7) (by decide) (by decide) (by decide)
      (by decide)).1 (by decide),
   (start_cycle_field 30 3 none (by decide) (by decide) (by decide)
      (by decide)).2 (by decide) (by decide) (by decide)⟩

theorem read_state_none_absent {c x : FileContent}
    (h : read_state c = .ok (none, x)) : x = .absent := by
  cases c <;> simp_all [read_state, clear_state]

theorem stop_one_ok_absent {env : ProcEnv} {c : FileContent} {b : Bool}
    {c2 : FileContent} (h : stop_one env c = .ok (b, c2)) : c2 = .absent := by
  unfold stop_one at h
  split at h
  · simp at h
  · rename_i c3 hread
    simp only [Except.ok.injEq, Prod.mk.injEq] at h
    obtain ⟨hb, hc⟩ := h
    subst hc
    exact read_state_none_absent hread
  · rename_i s c3 hread
    split at h
    · simp at h
    · split at h
      · simp at h
      · simp only [Except.ok.injEq, Prod.mk.injEq] at h
        obtain ⟨hb, hc⟩ := h
        subst hc
        rfl
    · simp only [Except.ok.injEq, Prod.mk.injEq] at h
      obtain ⟨hb, hc⟩ := h
      subst hc
      rfl

/-- C8: whenever a call to `stop` completes, both the primary and the
legacy state paths are left with no state record, and a second call to
`stop` (under any process environment) reports "not running" with exit
code 1 while leaving both paths empty. -/
theorem stop_idempotent (env : ProcEnv) (fs : FS) (code : Int) (fs2 : FS)
    (h : stop env fs = .ok (code, fs2)) :
    fs2.primary = .absent ∧ fs2.legacy = .absent ∧
    ∀ env2 : ProcEnv, stop env2 fs2 = .ok (1, fs2) := by
  unfold stop at h
  split at h
  · simp at h
  · rename_i b1 p2 h1
    split at h
    · simp at h
    · rename_i b2 l2 h2
      simp only [Except.ok.injEq, Prod.mk.injEq] at h
      obtain ⟨hcode, hfs⟩ := h
      subst hfs
      have hp := stop_one_ok_absent h1
      have hl := stop_one_ok_absent h2
      subst hp
      subst hl
      exact ⟨rfl, rfl, fun env2 => rfl⟩

theorem stop_idempotent_witness :
    (⟨FileContent.absent, FileContent.absent⟩ : FS).primary = .absent ∧
    (⟨FileContent.absent, FileContent.absent⟩ : FS).legacy = .absent ∧
    ∀ env2 : ProcEnv,
      stop env2 ⟨.absent, .absent⟩ = .ok (1, ⟨.absent, .absent⟩) :=
  stop_idempotent demo_env ⟨.record demo_state, .corrupt⟩ 0
    ⟨.absent, .absent⟩ rfl

/-- C9: an omitted minutes argument defaults a work session (no sets, or
sets <= 1) to 25 minutes and a break session to 5 minutes; with sets >= 2,
omitted minutes defaults the work phase to 25 and omitted break-minutes
defaults the break phase to 5. -/
theorem default_minutes_applied :
    start_single_session .work none = .ok (.work, DEFAULT_WORK_MINUTES, none) ∧
    start_single_session .brk none = .ok (.brk, DEFAULT_BREAK_MINUTES, none) ∧
    start_work none none none = .ok (.work, DEFAULT_WORK_MINUTES, none) ∧
    (∀ b : Option Nat, start_work none (some 1) b =
      .ok (.work, DEFAULT_WORK_MINUTES, none)) ∧
    (∀ s : Nat, 2 ≤ s → s ≤ MAX_SETS →
      start_work none (some s) none =
        .ok (.work, DEFAULT_WORK_MINUTES,
          some ⟨1, s, DEFAULT_WORK_MINUTES, DEFAULT_BREAK_MINUTES⟩)) := by
  refine ⟨rfl, rfl, rfl, fun b => rfl, ?_⟩
  intro s hs2 hs100
  simp only [start_work, validate_sets_of (by omega : 1 ≤ s) hs100]
  rw [if_neg (by omega : ¬s ≤ 1)]
  rfl

theorem default_minutes_applied_witness :
    start_work none (some 4) none =
      .ok (.work, DEFAULT_WORK_MINUTES,
        some ⟨1, 4, DEFAULT_WORK_MINUTES, DEFAULT_BREAK_MINUTES⟩) :=
  default_minutes_applied.2.2.2.2 4 (by decide) (by decide)

end Pomo
